import Mathlib

/-!
Verification development for the PersonalizedContentRecommendation repository.

The Python source (`app.py`) is shallowly embedded below:
* pure helpers (`extract_keywords`) become Lean functions on `String`/`List`;
* the stateful fallback pipeline `fetch_articles_from_api` becomes a pure
  function of an explicit environment (provider responses, API-key presence,
  the loaded catalog and TF-IDF state, the random-sample choice), an explicit
  cache value and the current clock, returning the result list, the updated
  cache and flags recording which sources were consulted;
* library calls with real-number output (scikit-learn's TF-IDF projection and
  cosine similarity) are oracles in the environment: the flattened similarity
  row that `cosine_similarity(...).flatten()` returns is a `List ℚ` supplied by
  the environment, and the code's subsequent index arithmetic, sorting,
  thresholding and slicing are translated exactly;
* Python's `sorted` (documented stable) and dict insertion-iteration order
  are modelled by an explicit stable insertion sort; numpy's `argsort` is
  modelled by the same sort — see the argsort section for exactly what that
  model does and does not guarantee about equal values.
-/

namespace PCR

/-! ### Stable sorts by a key

The descending sort models Python's stable `sorted(..., key=k, reverse=True)`
(Python's sort is documented stable: ties keep the original order); the
ascending twin is used for numpy's `argsort`, whose guarantees are weaker —
see the argsort section. -/

variable {κ : Type} [LinearOrder κ]

/-- Insert `x` into `l` (sorted descending by `key`), after every element with a
strictly larger key and before the first element whose key is `≤ key x`; hence
an element inserted before the others ends up before equal-key elements. -/
def insertDescBy (key : α → κ) (x : α) : List α → List α
  | [] => [x]
  | y :: ys => if key x < key y then y :: insertDescBy key x ys else x :: y :: ys

/-- Stable insertion sort, descending by `key`. -/
def sortDescBy (key : α → κ) : List α → List α
  | [] => []
  | x :: xs => insertDescBy key x (sortDescBy key xs)

theorem mem_insertDescBy (key : α → κ) (x : α) (l : List α) (a : α) :
    a ∈ insertDescBy key x l ↔ a = x ∨ a ∈ l := by
  induction l with
  | nil => simp [insertDescBy]
  | cons y ys ih =>
    by_cases h : key x < key y <;> simp [insertDescBy, h, ih] <;> tauto

theorem mem_sortDescBy (key : α → κ) (l : List α) (a : α) :
    a ∈ sortDescBy key l ↔ a ∈ l := by
  induction l with
  | nil => simp [sortDescBy]
  | cons x xs ih => simp [sortDescBy, mem_insertDescBy, ih]

/-- The ordering that a stable descending sort produces when the input was
ordered by `Q`: strictly larger key first, ties resolved by `Q`. -/
def descRel (key : α → κ) (Q : α → α → Prop) : α → α → Prop :=
  fun a b => key b < key a ∨ (key a = key b ∧ Q a b)

theorem pairwise_insertDescBy (key : α → κ) (Q : α → α → Prop) (x : α) (l : List α)
    (hl : l.Pairwise (descRel key Q)) (hx : ∀ y ∈ l, Q x y) :
    (insertDescBy key x l).Pairwise (descRel key Q) := by
  induction l with
  | nil => simp [insertDescBy]
  | cons y ys ih =>
    rw [List.pairwise_cons] at hl
    by_cases h : key x < key y
    · rw [insertDescBy, if_pos h, List.pairwise_cons]
      refine ⟨?_, ih hl.2 (fun z hz => hx z (List.mem_cons_of_mem y hz))⟩
      intro z hz
      rw [mem_insertDescBy] at hz
      rcases hz with rfl | hz
      · exact Or.inl h
      · exact hl.1 z hz
    · rw [insertDescBy, if_neg h, List.pairwise_cons]
      push_neg at h
      constructor
      · intro z hz
        have hQ : Q x z := hx z hz
        rcases List.mem_cons.mp hz with h1 | h2
        · subst h1
          rcases lt_or_eq_of_le h with h' | h'
          · exact Or.inl h'
          · exact Or.inr ⟨h'.symm, hQ⟩
        · have hyz := hl.1 z h2
          rcases hyz with h' | h'
          · exact Or.inl (lt_of_lt_of_le h' h)
          · rcases lt_or_eq_of_le (h'.1 ▸ h) with h'' | h''
            · exact Or.inl h''
            · exact Or.inr ⟨h''.symm, hQ⟩
      · exact List.pairwise_cons.mpr ⟨hl.1, hl.2⟩

theorem pairwise_sortDescBy (key : α → κ) (Q : α → α → Prop) (l : List α)
    (hl : l.Pairwise Q) : (sortDescBy key l).Pairwise (descRel key Q) := by
  induction l with
  | nil => simp [sortDescBy]
  | cons x xs ih =>
    rw [List.pairwise_cons] at hl
    exact pairwise_insertDescBy key Q x _ (ih hl.2)
      (fun y hy => hl.1 y ((mem_sortDescBy key xs y).mp hy))

/-- Ascending twin of `insertDescBy`: `x` goes after every element with a
strictly smaller key, before the first element with key `≥ key x`. -/
def insertAscBy (key : α → κ) (x : α) : List α → List α
  | [] => [x]
  | y :: ys => if key y < key x then y :: insertAscBy key x ys else x :: y :: ys

/-- Stable insertion sort, ascending by `key`. -/
def sortAscBy (key : α → κ) : List α → List α
  | [] => []
  | x :: xs => insertAscBy key x (sortAscBy key xs)

theorem mem_insertAscBy (key : α → κ) (x : α) (l : List α) (a : α) :
    a ∈ insertAscBy key x l ↔ a = x ∨ a ∈ l := by
  induction l with
  | nil => simp [insertAscBy]
  | cons y ys ih =>
    by_cases h : key y < key x <;> simp [insertAscBy, h, ih] <;> tauto

theorem mem_sortAscBy (key : α → κ) (l : List α) (a : α) :
    a ∈ sortAscBy key l ↔ a ∈ l := by
  induction l with
  | nil => simp [sortAscBy]
  | cons x xs ih => simp [sortAscBy, mem_insertAscBy, ih]

/-- The ordering a stable ascending sort produces when the input was ordered
by `Q`. -/
def ascRel (key : α → κ) (Q : α → α → Prop) : α → α → Prop :=
  fun a b => key a < key b ∨ (key a = key b ∧ Q a b)

theorem pairwise_insertAscBy (key : α → κ) (Q : α → α → Prop) (x : α) (l : List α)
    (hl : l.Pairwise (ascRel key Q)) (hx : ∀ y ∈ l, Q x y) :
    (insertAscBy key x l).Pairwise (ascRel key Q) := by
  induction l with
  | nil => simp [insertAscBy]
  | cons y ys ih =>
    rw [List.pairwise_cons] at hl
    by_cases h : key y < key x
    · rw [insertAscBy, if_pos h, List.pairwise_cons]
      refine ⟨?_, ih hl.2 (fun z hz => hx z (List.mem_cons_of_mem y hz))⟩
      intro z hz
      rw [mem_insertAscBy] at hz
      rcases hz with rfl | hz
      · exact Or.inl h
      · exact hl.1 z hz
    · rw [insertAscBy, if_neg h, List.pairwise_cons]
      push_neg at h
      constructor
      · intro z hz
        have hQ : Q x z := hx z hz
        rcases List.mem_cons.mp hz with h1 | h2
        · subst h1
          rcases lt_or_eq_of_le h with h' | h'
          · exact Or.inl h'
          · exact Or.inr ⟨h', hQ⟩
        · have hyz := hl.1 z h2
          rcases hyz with h' | h'
          · exact Or.inl (lt_of_le_of_lt h h')
          · rcases lt_or_eq_of_le (le_trans h (le_of_eq h'.1)) with h'' | h''
            · exact Or.inl h''
            · exact Or.inr ⟨h'', hQ⟩
      · exact List.pairwise_cons.mpr ⟨hl.1, hl.2⟩

theorem pairwise_sortAscBy (key : α → κ) (Q : α → α → Prop) (l : List α)
    (hl : l.Pairwise Q) : (sortAscBy key l).Pairwise (ascRel key Q) := by
  induction l with
  | nil => simp [sortAscBy]
  | cons x xs ih =>
    rw [List.pairwise_cons] at hl
    exact pairwise_insertAscBy key Q x _ (ih hl.2)
      (fun y hy => hl.1 y ((mem_sortAscBy key xs y).mp hy))

/-! ### numpy argsort

`cosine_similarities.argsort()` returns the indices of the list in ascending
value order, and `[::-1]` is `List.reverse`.  numpy's default sort
(`kind='quicksort'`, an introsort) is documented NOT stable: for
general-length rows the relative order of equal values is unspecified, and
only below numpy's ~16-element insertion-sort cutoff does it coincide with a
stable ascending insertion sort.  The model below is that stable insertion
sort: it orders values correctly at every length and agrees with numpy
exactly on the short concrete rows used in this file (2-3 elements), but its
equal-value order is a modelling choice beyond that cutoff — so no theorem
here asserts an equal-value-order property of general-length rows
(`pairwise_argsortDesc` states the model's tie order and feeds only the
tie-order-invariant `pairwise_argsortDesc_le`). -/

def argsortAsc (xs : List ℚ) : List Nat :=
  sortAscBy (fun i => xs.getD i 0) (List.range xs.length)

def argsortDesc (xs : List ℚ) : List Nat :=
  (argsortAsc xs).reverse

theorem mem_argsortDesc (xs : List ℚ) (i : Nat) :
    i ∈ argsortDesc xs ↔ i < xs.length := by
  simp [argsortDesc, argsortAsc, mem_sortAscBy, List.mem_range]

theorem pairwise_argsortDesc (xs : List ℚ) :
    (argsortDesc xs).Pairwise
      (fun i j => xs.getD j 0 < xs.getD i 0 ∨ (xs.getD i 0 = xs.getD j 0 ∧ j < i)) := by
  have h0 : (List.range xs.length).Pairwise (· < ·) := List.pairwise_lt_range _
  have h1 := pairwise_sortAscBy (fun i => xs.getD i 0) (· < ·) _ h0
  rw [argsortDesc, argsortAsc, List.pairwise_reverse]
  refine h1.imp ?_
  intro a b hab
  rcases hab with h | h
  · exact Or.inl h
  · exact Or.inr ⟨h.1.symm, h.2⟩

/-! ### Keyword extraction (`extract_keywords`, app.py lines 251-283)

`re.sub(r'[^\w\s]', '', text.lower())` keeps word characters (alphanumeric or
underscore) and whitespace of the lowercased text; `str.split()` splits on runs
of whitespace and drops empty pieces; the word-frequency dict iterates in
insertion order (= first-occurrence order), and `sorted(..., key=count,
reverse=True)` is a stable descending sort. -/

def isWordChar (c : Char) : Bool := c.isAlphanum || c = '_'

/-- Characters of `re.sub(r'[^\w\s]', '', text.lower())`. -/
def normalizeChars (s : String) : List Char :=
  (s.toList.map Char.toLower).filter (fun c => isWordChar c || c.isWhitespace)

/-- Python `str.split()`: split on runs of whitespace, no empty pieces.
`acc` holds the current word's characters in reverse. -/
def splitWsAux : List Char → List Char → List String
  | [], acc => if acc.isEmpty then [] else [String.mk acc.reverse]
  | c :: cs, acc =>
    if c.isWhitespace then
      if acc.isEmpty then splitWsAux cs [] else String.mk acc.reverse :: splitWsAux cs []
    else splitWsAux cs (c :: acc)

/-- The token stream `text.lower()`, punctuation-stripped, split on whitespace. -/
def pyWords (s : String) : List String :=
  splitWsAux (normalizeChars s) []

def stop_words : List String :=
  ["the", "a", "an", "and", "or", "but", "is", "are", "was", "were",
   "be", "been", "being", "in", "on", "at", "by", "for", "with", "about",
   "against", "between", "into", "through", "during", "before", "after",
   "above", "below", "to", "from", "up", "down", "of", "off", "over", "under",
   "again", "further", "then", "once", "here", "there", "when", "where", "why",
   "how", "all", "any", "both", "each", "few", "more", "most", "other", "some",
   "such", "no", "nor", "not", "only", "own", "same", "so", "than", "too", "very",
   "can", "will", "just", "should", "now"]

/-- `[word for word in words if word not in stop_words and len(word) > 3]`. -/
def filtered_words (text : String) : List String :=
  (pyWords text).filter (fun w => !stop_words.contains w && decide (3 < w.length))

/-- Distinct elements in first-occurrence order, with explicit fuel so that the
definition is structurally recursive (the fuel `l.length` used by `firstOccs`
always suffices, since filtering only shrinks the list). -/
def firstOccsAux : Nat → List String → List String
  | 0, _ => []
  | _, [] => []
  | fuel + 1, w :: ws => w :: firstOccsAux fuel (ws.filter (fun v => v ≠ w))

/-- Distinct elements in first-occurrence order: the iteration order of the
`word_freq` dict built by insertion. -/
def firstOccs (l : List String) : List String :=
  firstOccsAux l.length l

/-- The `word_freq.items()` list: each distinct word with its frequency, in
insertion order. -/
def wordFreqItems (text : String) : List (String × Nat) :=
  (firstOccs (filtered_words text)).map (fun w => (w, (filtered_words text).count w))

/-- `extract_keywords` (app.py lines 251-283). -/
def extract_keywords (text : String) (max_keywords : Nat := 5) : List String :=
  if text = "" then []
  else
    ((sortDescBy (fun p => p.2) (wordFreqItems text)).take max_keywords).map (fun p => p.1)

/-! ### Data model -/

/-- A row of `articles_df` (columns of `articles.csv` plus the optional
columns, with pandas `.get(col, default)` defaults already applied). -/
structure Article where
  article_id : Nat
  title : String
  category : String
  keywords : String
  url : String
  snippet : String
  published_date : String
deriving DecidableEq, Repr

/-- A result dict built by `fetch_articles_from_api` /
`get_recommendations_by_interests`.  Provider results carry no
`similarity_score` key (`none`); `snippet` is `None` when NewsAPI returned a
null description. -/
structure ResultItem where
  article_id : Nat
  title : String
  category : String
  keywords : String
  url : String
  snippet : Option String
  published_date : String
  similarity_score : Option ℚ
deriving DecidableEq, Repr

/-- Outcome of one `requests.get` call together with payload decoding:
`exn` covers a raised transport error and any malformed payload whose field
accesses raise inside the `try` block; `resp` is a response with its HTTP
status code and a decoded body. -/
inductive ProviderCall (β : Type) where
  | exn : ProviderCall β
  | resp (status : Int) (body : β) : ProviderCall β

/-- One element of NewsAPI's `articles` array (`description` may be null). -/
structure NewsArticleRaw where
  title : String
  description : Option String
  url : String
  publishedAt : String
deriving DecidableEq, Repr

/-- Decoded NewsAPI body: `statusOk` is `data['status'] == 'ok'`, `articles`
is `some` exactly when `'articles' in data`. -/
structure NewsBody where
  statusOk : Bool
  articles : Option (List NewsArticleRaw)

/-- The `fields` object of a Guardian result (`dict.get` semantics). -/
structure GuardianFields where
  headline : Option String
  trailText : Option String
deriving DecidableEq, Repr

/-- One element of the Guardian `response.results` array. -/
structure GuardianArticleRaw where
  fields : GuardianFields
  webTitle : Option String
  webUrl : String
  webPublicationDate : String
deriving DecidableEq, Repr

/-- Decoded Guardian body (`data['response']['results']`). -/
structure GuardianBody where
  results : List GuardianArticleRaw

/-- `article_cache`: maps a cache key to `(cache_time, cached_results)`. -/
def Cache : Type := String → Option (ℚ × List ResultItem)

def emptyCache : Cache := fun _ => none

def CACHE_DURATION : ℚ := 3600

/-- Everything `fetch_articles_from_api` reads besides its arguments: the
truthiness of the two API keys, the outcome each provider WOULD return for
this request, the loaded catalog and TF-IDF state, the similarity row the
TF-IDF library WOULD compute for this query against the loaded matrix
(`cosine_similarity(query_vector, tfidf_matrix).flatten()`), the row it WOULD
compute against a matrix freshly fitted on the filtered catalog
(`get_recommendations_by_interests` lines 323-332), and the rows
`DataFrame.sample` WOULD pick. -/
structure Env where
  hasNewsKey : Bool
  hasGuardianKey : Bool
  newsCall : ProviderCall NewsBody
  guardianCall : ProviderCall GuardianBody
  articles_df : List Article
  tfidfLoaded : Bool
  fullSims : List ℚ
  localSims : List ℚ
  sampleFn : List Article → Nat → List Article

/-! ### `fetch_articles_from_api` (app.py lines 77-249) -/

/-- NewsAPI category translation table (app.py lines 95-101). -/
def category_mapping (c : String) : Option String :=
  if c = "Technology" then some ("technology")
  else if c = "Business" then some ("business")
  else if c = "Science" then some ("science")
  else if c = "Sports" then some ("sports")
  else if c = "Lifestyle" then some ("health")
  else none

/-- Guardian section translation table (app.py lines 150-156). -/
def section_mapping (c : String) : Option String :=
  if c = "Technology" then some ("technology")
  else if c = "Business" then some ("business")
  else if c = "Science" then some ("science")
  else if c = "Sports" then some ("sport")
  else if c = "Lifestyle" then some ("lifeandstyle")
  else none

/-- `news_api_categories[0] if news_api_categories else None`. -/
def newsCategoryParam (categories : List String) : Option String :=
  (categories.filterMap category_mapping).head?

/-- `next((c for c in categories if category_mapping.get(c) == category_param),
categories[0])`.  When `categories` is empty the Python expression raises
IndexError inside the `try`; the caller accounts for that case. -/
def newsResultCategory (categories : List String) (param : Option String) : String :=
  match categories.find? (fun c => category_mapping c == param) with
  | some c => c
  | none => categories.headD ("")

/-- One dict appended in the NewsAPI loop (app.py lines 125-141). -/
def mkNewsItem (categories : List String) (param : Option String)
    (i : Nat) (a : NewsArticleRaw) : ResultItem :=
  { article_id := i + 1
    title := a.title
    category := newsResultCategory categories param
    keywords := String.intercalate (",") (extract_keywords (a.title ++ " " ++ a.description.getD ("")))
    url := a.url
    snippet := a.description
    published_date := a.publishedAt
    similarity_score := none }

/-- The items the NewsAPI branch contributes (app.py lines 92-144).  Any raised
exception is swallowed by the `except`, leaving zero contributed items: a
transport error aborts before any append, and when `categories` is empty the
`categories[0]` default raises while building the first dict. -/
def newsItems (env : Env) (categories : List String) : List ResultItem :=
  match env.newsCall with
  | .exn => []
  | .resp status body =>
    if status = 200 then
      if body.statusOk then
        match body.articles with
        | some arts =>
          if categories.isEmpty then []
          else arts.mapIdx (fun i a => mkNewsItem categories (newsCategoryParam categories) i a)
        | none => []
      else []
    else []

def guardianSectionParam (categories : List String) : Option String :=
  (categories.filterMap section_mapping).head?

def guardianResultCategory (categories : List String) (param : Option String) : String :=
  match categories.find? (fun c => section_mapping c == param) with
  | some c => c
  | none => categories.headD ("")

/-- One dict appended in the Guardian loop (app.py lines 178-192). -/
def mkGuardianItem (categories : List String) (param : Option String)
    (i : Nat) (a : GuardianArticleRaw) : ResultItem :=
  { article_id := i + 1
    title := match a.fields.headline with
             | some h => h
             | none => a.webTitle.getD ("No title")
    category := guardianResultCategory categories param
    keywords := String.intercalate (",")
      (extract_keywords (a.fields.headline.getD ("") ++ " " ++ a.fields.trailText.getD ("")))
    url := a.webUrl
    snippet := some (a.fields.trailText.getD ("No preview available"))
    published_date := a.webPublicationDate
    similarity_score := none }

/-- The items the Guardian branch contributes when attempted
(app.py lines 148-195), with the same exception accounting as `newsItems`. -/
def guardianItems (env : Env) (categories : List String) : List ResultItem :=
  match env.guardianCall with
  | .exn => []
  | .resp status body =>
    if status = 200 then
      if categories.isEmpty then []
      else body.results.mapIdx (fun i a => mkGuardianItem categories (guardianSectionParam categories) i a)
    else []

/-- A result dict built from a local catalog row with a similarity score. -/
def mkLocalItem (a : Article) (score : ℚ) : ResultItem :=
  { article_id := a.article_id
    title := a.title
    category := a.category
    keywords := a.keywords
    url := a.url
    snippet := some a.snippet
    published_date := a.published_date
    similarity_score := some score }

/-- The local-similarity sub-path (app.py lines 204-226): top indices of the
similarity row over the LOADED full-catalog matrix, each looked up by position
in the category-filtered frame, skipped when out of its range
(`if idx < len(filtered_df)`). -/
def localSimItems (env : Env) (filtered : List Article) (max_results : Nat) : List ResultItem :=
  if env.tfidfLoaded then
    ((argsortDesc env.fullSims).take max_results).filterMap (fun idx =>
      (filtered.get? idx).map (fun a => mkLocalItem a (env.fullSims.getD idx 0)))
  else []

/-- The random-sample sub-path (app.py lines 229-244). -/
def localSampleItems (env : Env) (filtered : List Article) (max_results : Nat) : List ResultItem :=
  let sample_size := min max_results filtered.length
  let sample_df := if 0 < sample_size then env.sampleFn filtered sample_size else filtered
  sample_df.map (fun a => mkLocalItem a (mkRat 1 2))

/-- The local-catalog fallback (app.py lines 198-244). -/
def localItems (env : Env) (categories : List String) (max_results : Nat) : List ResultItem :=
  let filtered := env.articles_df.filter (fun a => categories.contains a.category)
  let sims := localSimItems env filtered max_results
  if sims.isEmpty then localSampleItems env filtered max_results else sims

/-- `cache_key = f"{query}_{'-'.join(sorted(categories))}"`. -/
def sortStrings : List String → List String
  | [] => []
  | x :: xs => insertStr x (sortStrings xs)
where
  insertStr (x : String) : List String → List String
  | [] => [x]
  | y :: ys => if x ≤ y then x :: y :: ys else y :: insertStr x ys

def cacheKey (query : String) (categories : List String) : String :=
  query ++ "_" ++ String.intercalate ("-") (sortStrings categories)

/-- The fresh-hit check (app.py lines 83-87): `some cached` exactly when the
key is present and `time.time() - cache_time < CACHE_DURATION`. -/
def freshCached (cache : Cache) (now : ℚ) (key : String) : Option (List ResultItem) :=
  match cache key with
  | some (ctime, cached) => if now - ctime < CACHE_DURATION then some cached else none
  | none => none

def updateCache (cache : Cache) (key : String) (now : ℚ) (res : List ResultItem) : Cache :=
  fun k => if k = key then some (now, res) else cache k

/-- The source chain on a cache miss (app.py lines 89-244): `combined_results`
after the three gated blocks, plus flags recording whether `requests.get` was
reached for each provider and whether the local block ran. -/
def missChain (env : Env) (categories : List String) (max_results : Nat) :
    List ResultItem × Bool × Bool × Bool :=
  let news := if env.hasNewsKey then newsItems env categories else []
  let afterGuardian :=
    if news.isEmpty && env.hasGuardianKey then news ++ guardianItems env categories else news
  let combined :=
    if afterGuardian.isEmpty && !env.articles_df.isEmpty then
      afterGuardian ++ localItems env categories max_results
    else afterGuardian
  (combined, env.hasNewsKey, news.isEmpty && env.hasGuardianKey,
   afterGuardian.isEmpty && !env.articles_df.isEmpty)

/-- The full return value of one `fetch_articles_from_api` call: the returned
list, the state of `article_cache` afterwards, and which sources were
consulted (`newsCalled`/`guardianCalled` = the corresponding `requests.get`
executed, `localUsed` = the local fallback block ran). -/
structure FetchOutcome where
  result : List ResultItem
  cache' : Cache
  newsCalled : Bool
  guardianCalled : Bool
  localUsed : Bool

/-- `fetch_articles_from_api` (app.py lines 77-249). -/
def fetch_articles_from_api (env : Env) (cache : Cache) (now : ℚ)
    (query : String) (categories : List String) (max_results : Nat := 20) : FetchOutcome :=
  let key := cacheKey query categories
  match freshCached cache now key with
  | some cached => ⟨cached, cache, false, false, false⟩
  | none =>
    let r := missChain env categories max_results
    ⟨r.1, updateCache cache key now r.1, r.2.1, r.2.2.1, r.2.2.2⟩

/-! ### `get_recommendations_by_interests` (app.py lines 285-355) -/

/-- `max(0.5, min(0.95, 0.95 - i * 0.03))` (app.py lines 304-305). -/
def positionScore (i : Nat) : ℚ :=
  max (1/2) (min (19/20) ((19/20) - (i : ℚ) * (3/100)))

/-- The score-assignment loop over `api_results` (app.py lines 302-305):
`j` is the index of the first element. -/
def assignScoresAux (j : Nat) : List ResultItem → List ResultItem
  | [] => []
  | a :: rest => { a with similarity_score := some (positionScore j) } :: assignScoresAux (j + 1) rest

def assignScores (l : List ResultItem) : List ResultItem :=
  assignScoresAux 0 l

/-- The recommendation-building loop (app.py lines 338-353).  For each index:
skip unless `cosine_similarities[idx] > 0.01`; then `filtered_df.iloc[idx]`
raises IndexError (modelled `Except.error`) when `idx` is out of range —
this loop, unlike the one in `fetch_articles_from_api`, has no bound check. -/
def buildRecs (filtered : List Article) (sims : List ℚ) :
    List Nat → Except Unit (List ResultItem)
  | [] => .ok []
  | idx :: rest =>
    if mkRat 1 100 < sims.getD idx 0 then
      match filtered.get? idx with
      | some a => (buildRecs filtered sims rest).map (fun l => mkLocalItem a (sims.getD idx 0) :: l)
      | none => .error ()
    else buildRecs filtered sims rest

/-- `get_recommendations_by_interests` (app.py lines 285-355): calls
`fetch_articles_from_api` first; a non-empty result gets synthetic positional
scores; otherwise the local content path runs, using the loaded matrix's
similarity row when TF-IDF state exists and the freshly-fitted filtered-catalog
row otherwise.  `Except.error` models an uncaught IndexError. -/
def get_recommendations_by_interests (env : Env) (cache : Cache) (now : ℚ)
    (user_interests : String) (categories : List String) (max_results : Nat := 10) :
    Except Unit (List ResultItem) × Cache :=
  let f := fetch_articles_from_api env cache now user_interests categories max_results
  if !f.result.isEmpty then
    (.ok (assignScores f.result), f.cache')
  else if env.articles_df.isEmpty then (.ok [], f.cache')
  else
    let filtered := env.articles_df.filter (fun a => categories.contains a.category)
    if filtered.isEmpty then (.ok [], f.cache')
    else
      let sims := if env.tfidfLoaded then env.fullSims else env.localSims
      (buildRecs filtered sims ((argsortDesc sims).take max_results), f.cache')

/-! ### The history-based endpoint, modelled from the spec

The repository's source files contain no `GET /recommend/{userId}` handler;
only the spec (sections 4.3, 4.4, 6) describes it.  The definitions below are
therefore modelled from the spec, as marked. -/

/-- A row of `user_interactions.csv` (spec section 3, Interaction). -/
structure Interaction where
  user_id : Nat
  article_id : Nat
  timestamp : String
  interaction_type : String
deriving DecidableEq, Repr

/-- An item weight vector of the Vector-Space Index. -/
def Vec : Type := List ℚ

def addVec (a b : Vec) : Vec := List.zipWith (· + ·) a b

def scaleVec (c : ℚ) (v : Vec) : Vec := v.map (fun x => c * x)

/-- Element-wise arithmetic mean of a list of vectors (spec section 4.3). -/
def meanVec (dim : Nat) (vs : List Vec) : Vec :=
  scaleVec (1 / (vs.length : ℚ)) (vs.foldr addVec (List.replicate dim 0))

/-- Modelled from the spec (section 4.3): identifier `i` is valid when row
`i - 1` is inside the index's row range, i.e. `1 ≤ i ≤ rows`. -/
def inBoundsId (rows i : Nat) : Bool := 1 ≤ i && i ≤ rows

/-- Modelled from the spec (section 4.3, User Profile Builder): the distinct
item identifiers of the user's interactions, each mapped to row
`identifier - 1`, out-of-range identifiers discarded. -/
def profileRows (interactions : List Interaction) (rows userId : Nat) : List Nat :=
  (((interactions.filter (fun r => r.user_id == userId)).map (fun r => r.article_id)).dedup).filterMap
    (fun i => if inBoundsId rows i then some (i - 1) else none)

/-- Modelled from the spec (section 4.3): `none` signals "no profile"
(no valid in-bounds history); otherwise the mean of the selected rows'
weight vectors. -/
def userProfile (itemVecs : List Vec) (dim : Nat) (interactions : List Interaction)
    (userId : Nat) : Option Vec :=
  let rows := profileRows interactions itemVecs.length userId
  if rows.isEmpty then none
  else some (meanVec dim (rows.map (fun r => itemVecs.getD r [])))

/-- Modelled from the spec (section 4.4, cold-start policy): catalog item
identifiers ranked by raw interaction count across all users, descending,
top N. -/
def popularTopN (interactions : List Interaction) (rows n : Nat) : List Nat :=
  ((sortDescBy (fun i => interactions.countP (fun r => r.article_id = i))
    ((List.range rows).map (fun i => i + 1))).take n)

/-- Modelled from the spec (section 4.4, normal path): every item scored
against the query vector, sorted by similarity descending with ties broken by
identifier ascending, exclusion set removed, first N kept.  `sim` stands for
the cosine-similarity computation (with the zero-magnitude convention),
whose real-number arithmetic lives outside the embedded code. -/
def rankBySimilarity (sim : Vec → Vec → ℚ) (q : Vec) (itemVecs : List Vec)
    (exclude : List Nat) (n : Nat) : List (Nat × ℚ) :=
  let scored := (List.range itemVecs.length).map (fun i => (i + 1, sim q (itemVecs.getD i [])))
  ((sortDescBy (fun p => p.2) scored).filter (fun p => !exclude.contains p.1)).take n

/-- Modelled from the spec (section 6): the two response shapes of
`GET /recommend/{userId}` — bare identifiers (cold start) or
identifier/score pairs (normal). -/
inductive RecOutput where
  | coldStart (ids : List Nat)
  | normal (recs : List (Nat × ℚ))
deriving DecidableEq, Repr

/-- Modelled from the spec (sections 4.3, 4.4, 6): the missing
`GET /recommend/{userId}` operation — build the user profile from the
interaction log; with no profile take the popularity cold-start path,
otherwise rank by similarity to the mean profile vector. -/
def recommendForUser (sim : Vec → Vec → ℚ) (itemVecs : List Vec) (dim : Nat)
    (interactions : List Interaction) (exclude : List Nat) (userId n : Nat) : RecOutput :=
  match userProfile itemVecs dim interactions userId with
  | none => .coldStart (popularTopN interactions itemVecs.length n)
  | some q => .normal (rankBySimilarity sim q itemVecs exclude n)

/-! ### Concrete instances used by counterexamples and witnesses -/

def takeSample : List Article → Nat → List Article := fun l n => l.take n

def artA : Article := ⟨1, "t1", "A", "k1", "", "", ""⟩
def artB : Article := ⟨2, "t2", "B", "k2", "", "", ""⟩
def artC : Article := ⟨3, "t3", "B", "k3", "", "", ""⟩
def artA2 : Article := ⟨2, "t2", "A", "k2", "", "", ""⟩

/-- No keys, no catalog: every source fails or is skipped. -/
def envNoSources : Env := ⟨false, false, .exn, .exn, [], false, [], [], takeSample⟩

/-- Catalog of three articles (A, B, B), loaded TF-IDF matrix whose similarity
row for the query is `[0.9, 0.1, 1.0]`, no provider keys. -/
def envMisaligned : Env :=
  ⟨false, false, .exn, .exn, [artA, artB, artC], true, [mkRat 9 10, mkRat 1 10, 1], [], takeSample⟩

/-- Catalog of two category-A articles and a loaded matrix giving both the
same similarity `0.5` for the query. -/
def envTie : Env :=
  ⟨false, false, .exn, .exn, [artA, artA2], true, [mkRat 1 2, mkRat 1 2], [], takeSample⟩

/-- A cache holding exactly one entry. -/
def cacheWith (key : String) (t : ℚ) (res : List ResultItem) : Cache :=
  fun k => if k = key then some (t, res) else none

/-- Unfolding a call that misses the cache. -/
theorem fetch_miss_eq (env : Env) (cache : Cache) (now : ℚ) (query : String)
    (categories : List String) (max_results : Nat)
    (hmiss : freshCached cache now (cacheKey query categories) = none) :
    fetch_articles_from_api env cache now query categories max_results =
      ⟨(missChain env categories max_results).1,
       updateCache cache (cacheKey query categories) now (missChain env categories max_results).1,
       (missChain env categories max_results).2.1,
       (missChain env categories max_results).2.2.1,
       (missChain env categories max_results).2.2.2⟩ := by
  simp [fetch_articles_from_api, hmiss]

/-- Case analysis of the source chain: first non-empty contribution wins. -/
theorem missChain_eq (env : Env) (categories : List String) (max_results : Nat) :
    missChain env categories max_results =
      (if (if env.hasNewsKey then newsItems env categories else []) = [] then
        (if (if env.hasGuardianKey then guardianItems env categories else []) = [] then
          (if env.articles_df = [] then ([], env.hasNewsKey, env.hasGuardianKey, false)
           else (localItems env categories max_results, env.hasNewsKey, env.hasGuardianKey, true))
         else ((if env.hasGuardianKey then guardianItems env categories else []),
               env.hasNewsKey, env.hasGuardianKey, false))
       else ((if env.hasNewsKey then newsItems env categories else []),
             env.hasNewsKey, false, false)) := by
  unfold missChain
  by_cases hN : (if env.hasNewsKey then newsItems env categories else []) = []
  · by_cases hG : (if env.hasGuardianKey then guardianItems env categories else []) = []
    · by_cases hD : env.articles_df = [] <;>
        cases hgk : env.hasGuardianKey <;>
          simp_all [List.isEmpty_iff]
    · cases hgk : env.hasGuardianKey <;> simp_all [List.isEmpty_iff]
  · simp_all [List.isEmpty_iff]

/-! ### C3: result-cache time-to-live -/

/-- C3: a cache entry younger than the 3600 s TTL is returned unchanged with
no provider and no local source consulted and the cache left untouched; once
the entry's age exceeds the TTL the call runs the source chain and overwrites
the entry with the new results and the current timestamp. -/
theorem cache_ttl_lifecycle (env : Env) (cache : Cache) (now : ℚ) (query : String)
    (categories : List String) (max_results : Nat) (ctime : ℚ) (cached : List ResultItem)
    (hentry : cache (cacheKey query categories) = some (ctime, cached)) :
    (now - ctime < CACHE_DURATION →
      fetch_articles_from_api env cache now query categories max_results =
        ⟨cached, cache, false, false, false⟩)
    ∧ (CACHE_DURATION < now - ctime →
        (fetch_articles_from_api env cache now query categories max_results).result =
          (missChain env categories max_results).1
        ∧ (fetch_articles_from_api env cache now query categories max_results).cache'
            (cacheKey query categories) =
            some (now, (missChain env categories max_results).1)
        ∧ (fetch_articles_from_api env cache now query categories max_results).newsCalled =
            env.hasNewsKey) := by
  constructor
  · intro hfresh
    simp [fetch_articles_from_api, freshCached, hentry, hfresh]
  · intro hstale
    have hnot : ¬ (now - ctime < CACHE_DURATION) := by linarith
    refine ⟨?_, ?_, ?_⟩ <;>
      simp [fetch_articles_from_api, freshCached, hentry, hnot, updateCache, missChain]

/-- C3 witness: with an entry of age 10 s the cached list is returned and the
cache is unchanged. -/
theorem cache_ttl_lifecycle_witness :
    cacheWith (cacheKey ("q") (["A"])) 0 [] (cacheKey ("q") (["A"])) = some (0, [])
    ∧ fetch_articles_from_api envNoSources (cacheWith (cacheKey ("q") (["A"])) 0 []) 10
        ("q") (["A"]) 20 =
      ⟨[], cacheWith (cacheKey ("q") (["A"])) 0 [], false, false, false⟩ :=
  ⟨rfl,
   (cache_ttl_lifecycle envNoSources (cacheWith (cacheKey ("q") (["A"])) 0 []) 10
     ("q") (["A"]) 20 0 [] rfl).1 (by simp only [CACHE_DURATION, sub_zero]; decide)⟩

/-! ### C9: a miss always writes the cache, even with an empty result -/

/-- C9: every call that does not hit a fresh cache entry writes an entry under
its key with the current timestamp holding exactly the returned list — even
when that list is empty — and any identical query within the next 3600 s is
answered from that entry with no source consulted. -/
theorem miss_caches_result (env env2 : Env) (cache : Cache) (now now2 : ℚ)
    (query : String) (categories : List String) (max_results m2 : Nat)
    (hmiss : freshCached cache now (cacheKey query categories) = none)
    (hsoon : now2 - now < CACHE_DURATION) :
    (fetch_articles_from_api env cache now query categories max_results).cache'
        (cacheKey query categories) =
      some (now, (fetch_articles_from_api env cache now query categories max_results).result)
    ∧ fetch_articles_from_api env2
        (fetch_articles_from_api env cache now query categories max_results).cache'
        now2 query categories m2 =
        ⟨(fetch_articles_from_api env cache now query categories max_results).result,
         (fetch_articles_from_api env cache now query categories max_results).cache',
         false, false, false⟩ := by
  set F := fetch_articles_from_api env cache now query categories max_results with hF
  have hkey : F.cache' (cacheKey query categories) = some (now, F.result) := by
    rw [hF]
    simp [fetch_articles_from_api, hmiss, updateCache]
  refine ⟨hkey, ?_⟩
  have hfresh : freshCached F.cache' now2 (cacheKey query categories) = some F.result := by
    simp [freshCached, hkey, hsoon]
  unfold fetch_articles_from_api
  simp only [hfresh]

/-- C9 witness: with every source failing, the empty result is cached at the
current time and returned again from the cache 100 s later. -/
theorem miss_caches_result_witness :
    (fetch_articles_from_api envNoSources emptyCache 0 ("q") (["A"]) 20).result = []
    ∧ (fetch_articles_from_api envNoSources emptyCache 0 ("q") (["A"]) 20).cache'
        (cacheKey ("q") (["A"])) =
      some (0, (fetch_articles_from_api envNoSources emptyCache 0 ("q") (["A"]) 20).result)
    ∧ fetch_articles_from_api envNoSources
        (fetch_articles_from_api envNoSources emptyCache 0 ("q") (["A"]) 20).cache'
        100 ("q") (["A"]) 20 =
        ⟨(fetch_articles_from_api envNoSources emptyCache 0 ("q") (["A"]) 20).result,
         (fetch_articles_from_api envNoSources emptyCache 0 ("q") (["A"]) 20).cache',
         false, false, false⟩ := by
  have h := miss_caches_result envNoSources envNoSources emptyCache 0 100
    ("q") (["A"]) 20 20 rfl (by simp only [CACHE_DURATION, sub_zero]; decide)
  exact ⟨by decide, h.1, h.2⟩

/-! ### C4: strict source priority within one call -/

/-- C4: on a cache miss the secondary provider is queried only when the primary
contributed zero items, the local catalog block runs only when both providers
contributed zero items, and the first source yielding a non-empty list
determines the returned list. -/
theorem source_priority_order (env : Env) (cache : Cache) (now : ℚ) (query : String)
    (categories : List String) (max_results : Nat)
    (hmiss : freshCached cache now (cacheKey query categories) = none) :
    ((fetch_articles_from_api env cache now query categories max_results).guardianCalled = true →
      (if env.hasNewsKey then newsItems env categories else []) = [])
    ∧ ((fetch_articles_from_api env cache now query categories max_results).localUsed = true →
        (if env.hasNewsKey then newsItems env categories else []) = []
        ∧ (if env.hasGuardianKey then guardianItems env categories else []) = [])
    ∧ (fetch_articles_from_api env cache now query categories max_results).result =
        (if (if env.hasNewsKey then newsItems env categories else []) ≠ [] then
          (if env.hasNewsKey then newsItems env categories else [])
        else if (if env.hasGuardianKey then guardianItems env categories else []) ≠ [] then
          (if env.hasGuardianKey then guardianItems env categories else [])
        else if env.articles_df ≠ [] then localItems env categories max_results
        else []) := by
  rw [fetch_miss_eq env cache now query categories max_results hmiss, missChain_eq]
  by_cases hN : (if env.hasNewsKey then newsItems env categories else []) = []
  · by_cases hG : (if env.hasGuardianKey then guardianItems env categories else []) = []
    · by_cases hD : env.articles_df = [] <;> simp [hN, hG, hD]
    · simp [hN, hG]
  · simp [hN]

/-- An environment whose primary provider raises and whose secondary returns
one article. -/
def envGuardianOnly : Env :=
  ⟨true, true, .exn, .resp 200 ⟨[⟨⟨some ("aaaa"), some ("bbbb")⟩, none, "u", "d"⟩]⟩,
   [artA], false, [], [], takeSample⟩

/-- C4 witness: primary raises, secondary succeeds, catalog present — the
returned list is the secondary provider's. -/
theorem source_priority_order_witness :
    (fetch_articles_from_api envGuardianOnly emptyCache 0 ("q") (["A"]) 20).result =
      guardianItems envGuardianOnly (["A"]) := by
  have h := source_priority_order envGuardianOnly emptyCache 0 ("q") (["A"]) 20 rfl
  rw [h.2.2]
  decide

/-! ### C6: provider failures are swallowed -/

/-- A provider call outcome the `except`/status check turns into zero results:
a raised exception or a non-200 status. -/
def ProviderCall.failed {β : Type} : ProviderCall β → Bool
  | .exn => true
  | .resp s _ => s != 200

/-- C6: when each provider call raises or returns a non-200 status, no error
reaches the caller (the embedded function is total and takes the normal path):
both providers contribute zero items, the chain still consults the secondary
provider (when its key is set) and then the local block (when a catalog is
loaded), and the local result is returned. -/
theorem provider_failure_swallowed (env : Env) (cache : Cache) (now : ℚ) (query : String)
    (categories : List String) (max_results : Nat)
    (hn : env.newsCall.failed = true) (hg : env.guardianCall.failed = true)
    (hmiss : freshCached cache now (cacheKey query categories) = none) :
    newsItems env categories = []
    ∧ guardianItems env categories = []
    ∧ (fetch_articles_from_api env cache now query categories max_results).guardianCalled =
        env.hasGuardianKey
    ∧ ((fetch_articles_from_api env cache now query categories max_results).localUsed = true ↔
        env.articles_df ≠ [])
    ∧ (fetch_articles_from_api env cache now query categories max_results).result =
        (if env.articles_df = [] then [] else localItems env categories max_results) := by
  have hni : newsItems env categories = [] := by
    cases hc : env.newsCall with
    | exn => simp [newsItems, hc]
    | resp s b =>
      rw [hc] at hn
      simp only [ProviderCall.failed, bne_iff_ne, ne_eq] at hn
      simp [newsItems, hc, hn]
  have hgi : guardianItems env categories = [] := by
    cases hc : env.guardianCall with
    | exn => simp [guardianItems, hc]
    | resp s b =>
      rw [hc] at hg
      simp only [ProviderCall.failed, bne_iff_ne, ne_eq] at hg
      simp [guardianItems, hc, hg]
  rw [fetch_miss_eq env cache now query categories max_results hmiss, missChain_eq]
  by_cases hD : env.articles_df = [] <;> simp [hni, hgi, hD]

/-- Primary returns HTTP 500, secondary returns HTTP 429, catalog of one
article. -/
def envBothFail : Env :=
  ⟨true, true, .resp 500 ⟨true, some []⟩, .resp 429 ⟨[]⟩, [artA], false, [], [], takeSample⟩

/-- C6 witness: with a 500 from the primary and a 429 from the secondary both
contribute zero items and the call falls through to the local catalog. -/
theorem provider_failure_swallowed_witness :
    newsItems envBothFail (["A"]) = []
    ∧ guardianItems envBothFail (["A"]) = []
    ∧ (fetch_articles_from_api envBothFail emptyCache 0 ("q") (["A"]) 20).result =
        (if envBothFail.articles_df = [] then [] else localItems envBothFail (["A"]) 20) := by
  have h := provider_failure_swallowed envBothFail emptyCache 0 ("q") (["A"]) 20
    (by decide) (by decide) rfl
  exact ⟨h.1, h.2.1, h.2.2.2.2⟩

/-! ### C7: synthetic positional scores on the provider path -/

theorem length_assignScoresAux (j : Nat) (l : List ResultItem) :
    (assignScoresAux j l).length = l.length := by
  induction l generalizing j with
  | nil => rfl
  | cons a rest ih => simp [assignScoresAux, ih]

theorem score_assignScoresAux (j : Nat) (l : List ResultItem) (i : Nat)
    (h : i < (assignScoresAux j l).length) :
    ((assignScoresAux j l).get ⟨i, h⟩).similarity_score = some (positionScore (j + i)) := by
  induction l generalizing j i with
  | nil => simp [assignScoresAux] at h
  | cons a rest ih =>
    cases i with
    | zero => simp [assignScoresAux]
    | succ k =>
      have h' : k < (assignScoresAux (j + 1) rest).length := by
        simpa [assignScoresAux] using h
      have hk := ih (j + 1) k h'
      have harith : j + 1 + k = j + (k + 1) := by omega
      rw [harith] at hk
      simpa [assignScoresAux] using hk

theorem positionScore_antitone {i j : Nat} (h : i ≤ j) : positionScore j ≤ positionScore i := by
  unfold positionScore
  refine max_le_max le_rfl (min_le_min le_rfl ?_)
  have hc : (i : ℚ) ≤ (j : ℚ) := by exact_mod_cast h
  have hm := mul_le_mul_of_nonneg_right hc (by norm_num : (0:ℚ) ≤ 3/100)
  linarith

theorem positionScore_bounds (i : Nat) : 1/2 ≤ positionScore i ∧ positionScore i ≤ 19/20 :=
  ⟨le_max_left _ _, max_le (by norm_num) (min_le_left _ _)⟩

/-- C7: whenever `fetch_articles_from_api` returns a non-empty list,
`get_recommendations_by_interests` returns exactly that list with the item at
zero-based position `i` assigned similarity score
`max(0.5, min(0.95, 0.95 - 0.03*i))`; these scores are non-increasing in
position (so the first item's is highest) and lie within `[0.5, 0.95]`. -/
theorem provider_path_scores (env : Env) (cache : Cache) (now : ℚ) (user_interests : String)
    (categories : List String) (max_results : Nat)
    (hne : (fetch_articles_from_api env cache now user_interests categories max_results).result
      ≠ []) :
    (get_recommendations_by_interests env cache now user_interests categories max_results).1 =
      .ok (assignScores
        (fetch_articles_from_api env cache now user_interests categories max_results).result)
    ∧ (∀ (i : Nat) (h : i < (assignScores (fetch_articles_from_api env cache now user_interests
          categories max_results).result).length),
        ((assignScores (fetch_articles_from_api env cache now user_interests categories
          max_results).result).get ⟨i, h⟩).similarity_score =
          some (max (1/2) (min (19/20) ((19/20) - (i : ℚ) * (3/100)))))
    ∧ (∀ i j : Nat, i ≤ j → positionScore j ≤ positionScore i)
    ∧ (∀ i : Nat, 1/2 ≤ positionScore i ∧ positionScore i ≤ 19/20) := by
  have hb : (fetch_articles_from_api env cache now user_interests categories
      max_results).result.isEmpty = false := by
    simpa [List.isEmpty_iff] using hne
  refine ⟨?_, ?_, fun i j h => positionScore_antitone h, positionScore_bounds⟩
  · simp [get_recommendations_by_interests, hb]
  · intro i h
    have hs := score_assignScoresAux 0 _ i h
    simpa [assignScores, positionScore] using hs

/-- C7 witness: a catalog-backed non-empty fetch result goes through the same
scoring branch. -/
theorem provider_path_scores_witness :
    (fetch_articles_from_api envTie emptyCache 0 ("q") (["A"]) 10).result ≠ []
    ∧ (get_recommendations_by_interests envTie emptyCache 0 ("q") (["A"]) 10).1 =
        .ok (assignScores (fetch_articles_from_api envTie emptyCache 0 ("q") (["A"]) 10).result) :=
  ⟨by decide, (provider_path_scores envTie emptyCache 0 ("q") (["A"]) 10 (by decide)).1⟩

/-! ### C2: the local similarity path mis-indexes the filtered frame -/

/-- C2 (code bug): with both providers yielding zero items and a loaded
vectorizer/matrix over the three-article catalog, the query's similarity row is
`[0.9, 0.1, 1.0]`, so among the requested category B the top item is article 3
(similarity 1.0).  The code instead applies the full-matrix row positions to
the category-filtered frame: the top index 2 falls outside the 2-row filtered
frame and is skipped, the similarity sub-path produces nothing, and the random
sample returns article 2 with the fixed default score 0.5 — not the
highest-similarity in-category items the claim (and spec section 4.5) state. -/
theorem local_similarity_misaligned :
    ((fetch_articles_from_api envMisaligned emptyCache 0 ("q") (["B"]) 1).result.map
      (fun r => (r.article_id, r.similarity_score))) = [(2, some (mkRat 1 2))]
    ∧ (envMisaligned.articles_df.filter (fun a => (["B"]).contains a.category)).map
        (fun a => envMisaligned.fullSims.getD (a.article_id - 1) 0) = [mkRat 1 10, 1]
    ∧ (∀ r ∈ (fetch_articles_from_api envMisaligned emptyCache 0 ("q") (["B"]) 1).result,
        r.article_id ≠ 3) :=
  ⟨by decide, by decide, by decide⟩

/-! ### C5: ranking order in the local content-based paths -/

/-- Attached similarity scores are non-increasing along the output.  This is
the part of the ranking order that every implementation of argsort
guarantees, whatever it does with equal values. -/
def scoreDesc (r s : ResultItem) : Prop :=
  s.similarity_score.getD 0 ≤ r.similarity_score.getD 0

/-- C5 counterexample: with the two-article equal-similarity catalog the
output is ids [2, 1] at equal score 0.5 — the smaller identifier does NOT
come first on a tie.  A 2-element row is far below numpy's ~16-element
insertion-sort threshold, where its argsort really is ascending-stable, so
the modelled trace coincides with the real one at this input. -/
theorem tie_order_counterexample :
    ((fetch_articles_from_api envTie emptyCache 0 ("q") (["A"]) 10).result.map
      (fun r => (r.article_id, r.similarity_score))) =
      [(2, some (mkRat 1 2)), (1, some (mkRat 1 2))]
    ∧ ¬ ((fetch_articles_from_api envTie emptyCache 0 ("q") (["A"]) 10).result.Pairwise
        (fun r s => r.similarity_score = s.similarity_score → r.article_id < s.article_id)) :=
  ⟨by decide, by decide⟩

/-- The value ordering along `argsortDesc`: values are non-increasing.  This
holds for any index order that sorts the values, independently of how equal
values are arranged. -/
theorem pairwise_argsortDesc_le (xs : List ℚ) :
    (argsortDesc xs).Pairwise (fun i j => xs.getD j 0 ≤ xs.getD i 0) := by
  refine (pairwise_argsortDesc xs).imp ?_
  intro a b h
  rcases h with h | h
  · exact le_of_lt h
  · exact le_of_eq h.1.symm

/-- Common shape of both local ranked outputs: a `filterMap` over similarity
row indices, every produced item carrying that row's value as its score.
Only the value ordering of the index list is assumed — nothing about
equal-value order. -/
theorem pairwise_filterMap_localScores (sims : List ℚ) (f : Nat → Option ResultItem)
    (hf : ∀ i x, f i = some x → x.similarity_score = some (sims.getD i 0))
    (idxs : List Nat)
    (hpw : idxs.Pairwise (fun i j => sims.getD j 0 ≤ sims.getD i 0)) :
    (idxs.filterMap f).Pairwise scoreDesc := by
  rw [List.pairwise_filterMap]
  refine hpw.imp ?_
  intro i j hij x hx y hy
  have hxs := hf i x (by simpa using hx)
  have hys := hf j y (by simpa using hy)
  unfold scoreDesc
  rw [hxs, hys]
  simpa using hij

/-- When every index is inside the filtered frame, the recommendation loop of
`get_recommendations_by_interests` raises nothing and produces the filterMap
of its indices. -/
theorem buildRecs_ok_of_lt (filtered : List Article) (sims : List ℚ) (idxs : List Nat)
    (h : ∀ i ∈ idxs, i < filtered.length) :
    buildRecs filtered sims idxs = .ok (idxs.filterMap (fun idx =>
      if mkRat 1 100 < sims.getD idx 0 then
        (filtered.get? idx).map (fun a => mkLocalItem a (sims.getD idx 0))
      else none)) := by
  induction idxs with
  | nil => rfl
  | cons idx rest ih =>
    have hi : idx < filtered.length := h idx (List.mem_cons_self _ _)
    have hrest := ih (fun i hi' => h i (List.mem_cons_of_mem _ hi'))
    have hget : filtered[idx]? = some (filtered.get ⟨idx, hi⟩) := by
      simp [List.getElem?_eq_getElem hi]
    by_cases hth : mkRat 1 100 < sims[idx]?.getD 0
    · simp [buildRecs, hth, hget, hrest, Except.map]
    · simp [buildRecs, hth, hrest]

/-- C5 amended: in both local ranked outputs (the similarity sub-path of
`fetch_articles_from_api` and the loop of `get_recommendations_by_interests`
in the aligned case) items are ordered by their attached similarity score
descending (non-increasing).  No fixed tie-break holds for equal scores:
numpy's default argsort leaves equal-value order unspecified for
general-length rows, and on small rows — where it insertion-sorts and the
model is exact — equal scores come back larger-position first, as the
counterexample shows. -/
theorem tie_order_amended (env : Env) (filtered : List Article) (sims : List ℚ) (n : Nat)
    (hlen : sims.length = filtered.length) :
    (localSimItems env filtered n).Pairwise scoreDesc
    ∧ ∃ recs,
        buildRecs filtered sims ((argsortDesc sims).take n) = .ok recs
        ∧ recs.Pairwise scoreDesc := by
  constructor
  · unfold localSimItems
    by_cases ht : env.tfidfLoaded
    · simp only [ht, if_true]
      refine pairwise_filterMap_localScores env.fullSims _ ?_ _
        (List.Pairwise.sublist (List.take_sublist _ _) (pairwise_argsortDesc_le env.fullSims))
      intro i x hx
      rw [Option.map_eq_some'] at hx
      obtain ⟨a, ha, rfl⟩ := hx
      rfl
    · simp [ht]
  · have hbound : ∀ i ∈ (argsortDesc sims).take n, i < filtered.length := by
      intro i hi
      have hm := (mem_argsortDesc sims i).mp (List.mem_of_mem_take hi)
      omega
    refine ⟨_, buildRecs_ok_of_lt filtered sims _ hbound, ?_⟩
    refine pairwise_filterMap_localScores sims _ ?_ _
      (List.Pairwise.sublist (List.take_sublist _ _) (pairwise_argsortDesc_le sims))
    intro i x hx
    by_cases hth : mkRat 1 100 < sims.getD i 0
    · rw [if_pos hth, Option.map_eq_some'] at hx
      obtain ⟨a, ha, rfl⟩ := hx
      rfl
    · rw [if_neg hth] at hx
      cases hx

/-- C5 amended witness: on the equal-similarity catalog the fetch similarity
path output is `[(2, 0.5), (1, 0.5)]` and satisfies the amended ordering. -/
theorem tie_order_amended_witness :
    ((localSimItems envTie [artA, artA2] 10).map
      (fun r => (r.article_id, r.similarity_score))) =
      [(2, some (mkRat 1 2)), (1, some (mkRat 1 2))]
    ∧ (localSimItems envTie [artA, artA2] 10).Pairwise scoreDesc
    ∧ ∃ recs,
        buildRecs [artA, artA2] [mkRat 1 2, mkRat 1 2]
          ((argsortDesc [mkRat 1 2, mkRat 1 2]).take 10) = .ok recs
        ∧ recs.Pairwise scoreDesc := by
  have h := tie_order_amended envTie [artA, artA2] [mkRat 1 2, mkRat 1 2] 10 (by decide)
  exact ⟨by decide, h.1, h.2⟩

/-! ### C10: the 0.01 relevance threshold -/

theorem mem_assignScoresAux (j : Nat) (l : List ResultItem) (r : ResultItem)
    (h : r ∈ assignScoresAux j l) : ∃ k, r.similarity_score = some (positionScore k) := by
  induction l generalizing j with
  | nil => simp [assignScoresAux] at h
  | cons a rest ih =>
    rcases List.mem_cons.mp h with h1 | h2
    · exact ⟨j, by rw [h1]⟩
    · exact ih (j + 1) h2

theorem buildRecs_scores (filtered : List Article) (sims : List ℚ) (idxs : List Nat)
    (recs : List ResultItem) (h : buildRecs filtered sims idxs = .ok recs) :
    ∀ r ∈ recs, mkRat 1 100 < r.similarity_score.getD 0 := by
  induction idxs generalizing recs with
  | nil =>
    simp only [buildRecs, Except.ok.injEq] at h
    subst h
    simp
  | cons idx rest ih =>
    simp only [buildRecs] at h
    by_cases hth : mkRat 1 100 < sims.getD idx 0
    · rw [if_pos hth] at h
      cases hg : filtered.get? idx with
      | none => rw [hg] at h; simp at h
      | some a =>
        rw [hg] at h
        cases hb : buildRecs filtered sims rest with
        | error e => rw [hb] at h; simp [Except.map] at h
        | ok L =>
          rw [hb] at h
          simp only [Except.map, Except.ok.injEq] at h
          subst h
          intro r hr
          rcases List.mem_cons.mp hr with h1 | h2
          · rw [h1]
            simpa [mkLocalItem] using hth
          · exact ih L hb r h2
    · rw [if_neg hth] at h
      exact ih recs h

/-- Every similarity in the row at most 0.01 means the loop keeps nothing,
whatever the indices and however large the filtered frame is. -/
theorem buildRecs_all_small (filtered : List Article) (sims : List ℚ) (idxs : List Nat)
    (hsmall : ∀ x ∈ sims, x ≤ mkRat 1 100) :
    buildRecs filtered sims idxs = .ok [] := by
  induction idxs with
  | nil => rfl
  | cons idx rest ih =>
    have hth : ¬ (mkRat 1 100 < sims.getD idx 0) := by
      rw [List.getD_eq_getElem?_getD]
      rcases lt_or_le idx sims.length with hlt | hge
      · rw [List.getElem?_eq_getElem hlt, Option.getD_some]
        exact not_lt.mpr (hsmall _ (List.getElem_mem _))
      · rw [List.getElem?_eq_none hge, Option.getD_none]
        rw [Rat.mkRat_eq_div]
        norm_num
    simp only [buildRecs, if_neg hth, ih]

/-- The possible `ok` results of `get_recommendations_by_interests`: the
rescored provider-path list, an early empty list, or the local loop's result. -/
theorem get_recs_cases (env : Env) (cache : Cache) (now : ℚ) (user_interests : String)
    (categories : List String) (max_results : Nat) (recs : List ResultItem)
    (h : (get_recommendations_by_interests env cache now user_interests categories
      max_results).1 = .ok recs) :
    recs = assignScores
        (fetch_articles_from_api env cache now user_interests categories max_results).result
    ∨ recs = []
    ∨ buildRecs (env.articles_df.filter (fun a => categories.contains a.category))
        (if env.tfidfLoaded then env.fullSims else env.localSims)
        ((argsortDesc (if env.tfidfLoaded then env.fullSims else env.localSims)).take
          max_results) = .ok recs := by
  simp only [get_recommendations_by_interests] at h
  split_ifs at h with h1 h2 h3 h4
  · exact Or.inl (Except.ok.inj h).symm
  · exact Or.inr (Or.inl (Except.ok.inj h).symm)
  · exact Or.inr (Or.inl (Except.ok.inj h).symm)
  · refine Or.inr (Or.inr ?_)
    rw [if_pos h4]
    exact h
  · refine Or.inr (Or.inr ?_)
    rw [if_neg h4]
    exact h

theorem mkRat_hundredth_lt_half : mkRat 1 100 < 1/2 := by
  rw [Rat.mkRat_eq_div]
  norm_num

/-- C10: every recommendation the function returns carries a similarity score
strictly above 0.01 (in the aligned local path that score is the item's own
similarity, so items at or below 0.01 are omitted); and when every similarity
is at most 0.01 the local loop returns the empty list no matter how many
in-category items exist — fewer than `max_results`. -/
theorem threshold_filter (env : Env) (cache : Cache) (now : ℚ) (user_interests : String)
    (categories : List String) (max_results : Nat) :
    (∀ recs, (get_recommendations_by_interests env cache now user_interests categories
        max_results).1 = .ok recs →
      ∀ r ∈ recs, mkRat 1 100 < r.similarity_score.getD 0)
    ∧ (∀ (filtered : List Article) (sims : List ℚ) (m : Nat),
        (∀ x ∈ sims, x ≤ mkRat 1 100) →
        buildRecs filtered sims ((argsortDesc sims).take m) = .ok []) := by
  constructor
  · intro recs h r hr
    rcases get_recs_cases env cache now user_interests categories max_results recs h with
      h1 | h1 | h1
    · subst h1
      obtain ⟨k, hk⟩ := mem_assignScoresAux 0 _ r (by simpa [assignScores] using hr)
      rw [hk]
      have hb := (positionScore_bounds k).1
      simp only [Option.getD_some]
      exact lt_of_lt_of_le mkRat_hundredth_lt_half hb
    · subst h1
      simp at hr
    · exact buildRecs_scores _ _ _ _ h1 r hr
  · intro filtered sims m hsmall
    exact buildRecs_all_small filtered sims _ hsmall

/-- C10 witness: the rescored path keeps everything above 0.01, and a two-item
in-category frame with similarities {0, 1/200} (both at or below 0.01) yields
the empty list though `max_results = 2` items of the category exist. -/
theorem threshold_filter_witness :
    (get_recommendations_by_interests envTie emptyCache 0 ("q") (["A"]) 10).1 =
      .ok (assignScores (fetch_articles_from_api envTie emptyCache 0 ("q") (["A"]) 10).result)
    ∧ (∀ r ∈ assignScores (fetch_articles_from_api envTie emptyCache 0 ("q") (["A"]) 10).result,
        mkRat 1 100 < r.similarity_score.getD 0)
    ∧ buildRecs [artA, artA2] [0, mkRat 1 200] ((argsortDesc [0, mkRat 1 200]).take 2) =
        .ok [] := by
  refine ⟨by rfl, ?_, ?_⟩
  · intro r hr
    exact (threshold_filter envTie emptyCache 0 ("q") (["A"]) 10).1 _ (by rfl) r hr
  · exact (threshold_filter envTie emptyCache 0 ("q") (["A"]) 10).2 [artA, artA2]
      [0, mkRat 1 200] 2 (by decide)

/-! ### C8: keyword extraction -/

theorem mem_firstOccsAux : ∀ (fuel : Nat) (l : List String) (w : String),
    w ∈ firstOccsAux fuel l → w ∈ l := by
  intro fuel
  induction fuel with
  | zero => intro l w h; simp [firstOccsAux] at h
  | succ f ih =>
    intro l w h
    cases l with
    | nil => simp [firstOccsAux] at h
    | cons x xs =>
      simp only [firstOccsAux] at h
      rcases List.mem_cons.mp h with h1 | h2
      · exact h1 ▸ List.mem_cons_self _ _
      · exact List.mem_cons_of_mem _ (List.mem_of_mem_filter (ih _ _ h2))

/-- First occurrences keep their relative order under `filter`. -/
theorem indexOf_lt_of_filter {α : Type} [DecidableEq α] (p : α → Bool) :
    ∀ (l : List α) (a b : α), a ∈ l.filter p → b ∈ l.filter p →
      (l.filter p).indexOf a < (l.filter p).indexOf b → l.indexOf a < l.indexOf b := by
  intro l
  induction l with
  | nil => intro a b ha; simp at ha
  | cons x xs ih =>
    intro a b ha hb hlt
    by_cases hpx : p x = true
    · rw [List.filter_cons_of_pos hpx] at ha hb hlt
      by_cases hax : a = x
      · subst hax
        have hba : b ≠ a := by
          intro hh
          subst hh
          exact lt_irrefl _ hlt
        rw [List.indexOf_cons_self, List.indexOf_cons_ne xs (Ne.symm hba)]
        exact Nat.succ_pos _
      · by_cases hbx : b = x
        · subst hbx
          rw [List.indexOf_cons_self] at hlt
          exact absurd hlt (Nat.not_lt_zero _)
        · have ha' : a ∈ xs.filter p := by
            rcases List.mem_cons.mp ha with h1 | h1
            · exact absurd h1 hax
            · exact h1
          have hb' : b ∈ xs.filter p := by
            rcases List.mem_cons.mp hb with h1 | h1
            · exact absurd h1 hbx
            · exact h1
          rw [List.indexOf_cons_ne _ (fun hh => hax hh.symm),
            List.indexOf_cons_ne _ (fun hh => hbx hh.symm)] at hlt
          rw [List.indexOf_cons_ne _ (fun hh => hax hh.symm),
            List.indexOf_cons_ne _ (fun hh => hbx hh.symm)]
          exact Nat.succ_lt_succ (ih a b ha' hb' (Nat.lt_of_succ_lt_succ hlt))
    · rw [List.filter_cons_of_neg hpx] at ha hb hlt
      have hax : a ≠ x := fun hh => hpx (hh ▸ List.of_mem_filter ha)
      have hbx : b ≠ x := fun hh => hpx (hh ▸ List.of_mem_filter hb)
      rw [List.indexOf_cons_ne _ (fun hh => hax hh.symm),
        List.indexOf_cons_ne _ (fun hh => hbx hh.symm)]
      exact Nat.succ_lt_succ (ih a b ha hb hlt)

/-- The dict iteration order lists words by strictly increasing first
occurrence in the token stream. -/
theorem pairwise_indexOf_firstOccsAux : ∀ (fuel : Nat) (l : List String),
    (firstOccsAux fuel l).Pairwise (fun a b => l.indexOf a < l.indexOf b) := by
  intro fuel
  induction fuel with
  | zero => intro l; simp [firstOccsAux]
  | succ f ih =>
    intro l
    cases l with
    | nil => simp [firstOccsAux]
    | cons w ws =>
      simp only [firstOccsAux]
      rw [List.pairwise_cons]
      constructor
      · intro b hb
        have hbmem : b ∈ ws.filter (fun v => v ≠ w) := mem_firstOccsAux _ _ _ hb
        have hbne : b ≠ w := by simpa using List.of_mem_filter hbmem
        rw [List.indexOf_cons_self, List.indexOf_cons_ne ws (Ne.symm hbne)]
        exact Nat.succ_pos _
      · have hp := ih (ws.filter (fun v => v ≠ w))
        refine hp.imp_of_mem ?_
        intro a b ha hb hab
        have ha' : a ∈ ws.filter (fun v => v ≠ w) := mem_firstOccsAux _ _ _ ha
        have hb' : b ∈ ws.filter (fun v => v ≠ w) := mem_firstOccsAux _ _ _ hb
        have hane : a ≠ w := by simpa using List.of_mem_filter ha'
        have hbne : b ≠ w := by simpa using List.of_mem_filter hb'
        have hws := indexOf_lt_of_filter _ ws a b ha' hb' hab
        rw [List.indexOf_cons_ne ws (Ne.symm hane), List.indexOf_cons_ne ws (Ne.symm hbne)]
        exact Nat.succ_lt_succ hws

theorem toLower_whitespace (c : Char) (h : c.isWhitespace = true) : c.toLower = c := by
  simp only [Char.isWhitespace, Bool.or_eq_true, decide_eq_true_eq] at h
  rcases h with ((h | h) | h) | h <;> subst h <;> decide

theorem splitWsAux_all_ws : ∀ (cs : List Char), (∀ c ∈ cs, c.isWhitespace = true) →
    splitWsAux cs [] = [] := by
  intro cs
  induction cs with
  | nil => intro _; rfl
  | cons c rest ih =>
    intro h
    have hc := h c (List.mem_cons_self _ _)
    have hrest := ih (fun d hd => h d (List.mem_cons_of_mem _ hd))
    simp [splitWsAux, hc, hrest]

theorem mem_wordFreqItems (text : String) (p : String × Nat)
    (h : p ∈ wordFreqItems text) : p.1 ∈ filtered_words text
    ∧ p.2 = (filtered_words text).count p.1 := by
  unfold wordFreqItems at h
  obtain ⟨w, hw, rfl⟩ := List.mem_map.mp h
  exact ⟨mem_firstOccsAux _ _ _ hw, rfl⟩

/-- C8: `extract_keywords` returns at most `max_keywords` tokens, each outside
the stop-word set and longer than 3 characters, ordered by strictly decreasing
frequency with equal frequencies resolved by first occurrence in the token
stream; empty or whitespace-only input yields the empty sequence. -/
theorem extract_keywords_spec (text : String) (max_keywords : Nat) :
    (extract_keywords text max_keywords).length ≤ max_keywords
    ∧ (∀ w ∈ extract_keywords text max_keywords, w ∉ stop_words ∧ 3 < w.length)
    ∧ (extract_keywords text max_keywords).Pairwise (fun w1 w2 =>
        (filtered_words text).count w2 < (filtered_words text).count w1 ∨
        ((filtered_words text).count w1 = (filtered_words text).count w2 ∧
          (filtered_words text).indexOf w1 < (filtered_words text).indexOf w2))
    ∧ ((∀ c ∈ text.toList, c.isWhitespace = true) → extract_keywords text max_keywords = []) := by
  by_cases htext : text = ""
  · simp [extract_keywords, htext]
  · have hout : extract_keywords text max_keywords =
        ((sortDescBy (fun p => p.2) (wordFreqItems text)).take max_keywords).map
          (fun p => p.1) := by
      simp [extract_keywords, htext]
    refine ⟨?_, ?_, ?_, ?_⟩
    · rw [hout, List.length_map, List.length_take]
      exact min_le_left _ _
    · intro w hw
      rw [hout] at hw
      obtain ⟨p, hp, rfl⟩ := List.mem_map.mp hw
      have hp1 : p ∈ sortDescBy (fun p => p.2) (wordFreqItems text) := List.mem_of_mem_take hp
      have hp2 : p ∈ wordFreqItems text := (mem_sortDescBy _ _ _).mp hp1
      have hmem : p.1 ∈ filtered_words text := (mem_wordFreqItems text p hp2).1
      have hpred := List.of_mem_filter hmem
      rw [Bool.and_eq_true] at hpred
      constructor
      · intro hmem'
        have := hpred.1
        simp at this
        exact this hmem'
      · exact of_decide_eq_true hpred.2
    · rw [hout]
      rw [List.pairwise_map]
      have hQ : (wordFreqItems text).Pairwise (fun p q =>
          (filtered_words text).indexOf p.1 < (filtered_words text).indexOf q.1) := by
        unfold wordFreqItems firstOccs
        rw [List.pairwise_map]
        exact pairwise_indexOf_firstOccsAux _ _
      have hsorted := pairwise_sortDescBy (fun p => p.2) _ _ hQ
      have htake := List.Pairwise.sublist
        (List.take_sublist max_keywords (sortDescBy (fun p => p.2) (wordFreqItems text))) hsorted
      refine htake.imp_of_mem ?_
      intro p q hp hq hpq
      have hp2 := (mem_wordFreqItems text p
        ((mem_sortDescBy _ _ _).mp (List.mem_of_mem_take hp))).2
      have hq2 := (mem_wordFreqItems text q
        ((mem_sortDescBy _ _ _).mp (List.mem_of_mem_take hq))).2
      rcases hpq with h | ⟨heq, hQpq⟩
      · exact Or.inl (by rw [← hp2, ← hq2]; exact h)
      · refine Or.inr ⟨?_, hQpq⟩
        rw [← hp2, ← hq2]
        exact heq
    · intro hws
      have hnorm : ∀ c ∈ normalizeChars text, c.isWhitespace = true := by
        intro c hc
        unfold normalizeChars at hc
        obtain ⟨d, hd, rfl⟩ := List.mem_map.mp (List.mem_of_mem_filter hc)
        rw [toLower_whitespace d (hws d hd)]
        exact hws d hd
      have hsplit : pyWords text = [] := splitWsAux_all_ws _ hnorm
      rw [hout]
      unfold wordFreqItems firstOccs filtered_words
      rw [hsplit]
      simp [firstOccsAux, sortDescBy]

/-- C8 witness: a whitespace-only input yields `[]`, and on a concrete text
the full specification applies. -/
theorem extract_keywords_spec_witness :
    extract_keywords ("  ") 5 = []
    ∧ (extract_keywords ("dogs dogs cats the ox") 5).length ≤ 5 := by
  refine ⟨(extract_keywords_spec ("  ") 5).2.2.2 (by decide), ?_⟩
  exact (extract_keywords_spec ("dogs dogs cats the ox") 5).1

/-! ### C1: cold-start selection of the history-based endpoint (spec model) -/

/-- The profile-row set is empty exactly when the user has no interaction row
with an in-bounds identifier. -/
theorem profileRows_eq_nil_iff (interactions : List Interaction) (rows userId : Nat) :
    profileRows interactions rows userId = [] ↔
      (interactions.filter (fun r => r.user_id == userId
        && inBoundsId rows r.article_id)) = [] := by
  unfold profileRows
  rw [List.filterMap_eq_nil_iff, List.filter_eq_nil_iff]
  constructor
  · intro h r hr
    rw [Bool.and_eq_true]
    rintro ⟨hu, hb⟩
    have hmem : r.article_id ∈ ((interactions.filter (fun x => x.user_id == userId)).map
        (fun x => x.article_id)).dedup := by
      rw [List.mem_dedup]
      exact List.mem_map.mpr ⟨r, List.mem_filter.mpr ⟨hr, hu⟩, rfl⟩
    have hnone := h _ hmem
    rw [if_pos hb] at hnone
    cases hnone
  · intro h i hi
    rw [List.mem_dedup] at hi
    obtain ⟨r, hrf, rfl⟩ := List.mem_map.mp hi
    have hrmem := List.mem_filter.mp hrf
    have hno := h r hrmem.1
    rw [Bool.and_eq_true] at hno
    have hb : ¬ inBoundsId rows r.article_id = true := fun hb => hno ⟨hrmem.2, hb⟩
    simp [hb]

/-- The spec's ranker output is sorted by similarity descending with ties
broken by identifier ascending. -/
theorem pairwise_rankBySimilarity (sim : Vec → Vec → ℚ) (q : Vec) (itemVecs : List Vec)
    (exclude : List Nat) (n : Nat) :
    (rankBySimilarity sim q itemVecs exclude n).Pairwise
      (fun p r => r.2 < p.2 ∨ (p.2 = r.2 ∧ p.1 < r.1)) := by
  unfold rankBySimilarity
  have hbase : ((List.range itemVecs.length).map
      (fun i => (i + 1, sim q (itemVecs.getD i [])))).Pairwise (fun p r => p.1 < r.1) := by
    rw [List.pairwise_map]
    refine (List.pairwise_lt_range _).imp ?_
    intro a b h
    simpa using h
  have hsorted := pairwise_sortDescBy (fun p => p.2) _ _ hbase
  refine List.Pairwise.sublist (List.take_sublist _ _) ?_
  refine (List.Pairwise.filter _ hsorted).imp ?_
  intro a b h
  rcases h with h | h
  · exact Or.inl h
  · exact Or.inr h

/-- C1 (modelled from the spec, sections 4.3, 4.4 and 6): the history-based
recommendation operation takes the cold-start popularity path if and only if
the user has zero valid in-bounds interaction rows; in that case it returns
the catalog identifiers ranked by raw interaction frequency across all users
(descending), top N, with no similarity scores attached; otherwise it returns
the similarity ranking against the user's mean profile vector, sorted by
similarity descending. -/
theorem recommend_user_cold_iff (sim : Vec → Vec → ℚ) (itemVecs : List Vec) (dim : Nat)
    (interactions : List Interaction) (exclude : List Nat) (userId n : Nat) :
    ((∃ ids, recommendForUser sim itemVecs dim interactions exclude userId n = .coldStart ids) ↔
      (interactions.filter (fun r => r.user_id == userId
        && inBoundsId itemVecs.length r.article_id)).length = 0)
    ∧ ((interactions.filter (fun r => r.user_id == userId
          && inBoundsId itemVecs.length r.article_id)).length = 0 →
        recommendForUser sim itemVecs dim interactions exclude userId n =
          .coldStart (popularTopN interactions itemVecs.length n))
    ∧ ((interactions.filter (fun r => r.user_id == userId
          && inBoundsId itemVecs.length r.article_id)).length ≠ 0 →
        recommendForUser sim itemVecs dim interactions exclude userId n =
          .normal (rankBySimilarity sim
            (meanVec dim ((profileRows interactions itemVecs.length userId).map
              (fun r => itemVecs.getD r [])))
            itemVecs exclude n)
        ∧ (rankBySimilarity sim
            (meanVec dim ((profileRows interactions itemVecs.length userId).map
              (fun r => itemVecs.getD r [])))
            itemVecs exclude n).Pairwise
              (fun p r => r.2 < p.2 ∨ (p.2 = r.2 ∧ p.1 < r.1))) := by
  have hiff := profileRows_eq_nil_iff interactions itemVecs.length userId
  have hcold : (interactions.filter (fun r => r.user_id == userId
      && inBoundsId itemVecs.length r.article_id)).length = 0 →
      recommendForUser sim itemVecs dim interactions exclude userId n =
        .coldStart (popularTopN interactions itemVecs.length n) := by
    intro hlen
    have hrows : profileRows interactions itemVecs.length userId = [] :=
      hiff.mpr (List.length_eq_zero.mp hlen)
    have hup : userProfile itemVecs dim interactions userId = none := by
      simp [userProfile, hrows]
    simp [recommendForUser, hup]
  refine ⟨⟨?_, fun h => ⟨_, hcold h⟩⟩, hcold, ?_⟩
  · rintro ⟨ids, hids⟩
    by_cases hrows : profileRows interactions itemVecs.length userId = []
    · exact List.length_eq_zero.mpr (hiff.mp hrows)
    · exfalso
      have hup : userProfile itemVecs dim interactions userId =
          some (meanVec dim ((profileRows interactions itemVecs.length userId).map
            (fun r => itemVecs.getD r []))) := by
        simp [userProfile, List.isEmpty_iff, hrows]
      simp [recommendForUser, hup] at hids
  · intro hlen
    have hrows : profileRows interactions itemVecs.length userId ≠ [] :=
      fun hh => hlen (List.length_eq_zero.mpr (hiff.mp hh))
    have hup : userProfile itemVecs dim interactions userId =
        some (meanVec dim ((profileRows interactions itemVecs.length userId).map
          (fun r => itemVecs.getD r []))) := by
      simp [userProfile, List.isEmpty_iff, hrows]
    exact ⟨by simp [recommendForUser, hup], pairwise_rankBySimilarity _ _ _ _ _⟩

def demoInteractions : List Interaction :=
  [⟨5, 1, "t", "view"⟩, ⟨5, 2, "t", "view"⟩, ⟨6, 2, "t", "click"⟩]

def demoVecs : List Vec := [[1, 0], [0, 1]]

/-- C1 witness: user 7 has no interactions in the demo log, so the operation
takes the popularity cold-start path. -/
theorem recommend_user_cold_iff_witness :
    recommendForUser (fun _ _ => 0) demoVecs 2 demoInteractions [] 7 3 =
      .coldStart (popularTopN demoInteractions 2 3) :=
  (recommend_user_cold_iff (fun _ _ => 0) demoVecs 2 demoInteractions [] 7 3).2.1 (by decide)

end PCR
